import Mathlib

/-!
Verification of the automation-condition evaluation engine of
`python_modules/dagster/dagster/_core/definitions/asset_automation_evaluator.py`.

Partition subsets are modelled as `Finset Nat` (partition keys as naturals);
evaluation metadata is modelled as an opaque `Nat`.  All definitions below are
shallow embeddings of the Python source, except those whose doc comments start
with `Modelled from the spec:`, which stand in for collaborator classes that
are not part of the provided sources.
-/

/-- Modelled from the spec: a `PartitionSubset`/`AssetSubset` is an immutable
set of partition keys supporting union, intersection and difference
(`asset_subset.py` is not among the provided sources).  Partition keys are
modelled as naturals. -/
abbrev AssetSubset : Type := Finset Nat

/-- Modelled from the spec: the decision type of an auto-materialize rule
(`auto_materialize_rule_evaluation.py` is not among the provided sources). -/
inductive AutoMaterializeDecisionType where
  | materialize
  | skip
  | discard
deriving DecidableEq

/-- Modelled from the spec: an `AutoMaterializeRule` wraps one named business
rule (`auto_materialize_rule.py` is not among the provided sources).  Generic
rules are identified by an opaque id plus their decision type; the
`DiscardOnMaxMaterializationsExceededRule(limit)` used by the top-level
evaluator is represented explicitly. -/
inductive AutoMaterializeRule where
  | generic (id : Nat) (decision : AutoMaterializeDecisionType)
  | discardOnMaxMaterializationsExceeded (limit : Nat)
deriving DecidableEq

/-- Modelled from the spec: a rule snapshot is a serializable record
identifying the rule; modelled as the rule itself. -/
def AutoMaterializeRuleSnapshot : Type := AutoMaterializeRule

instance : DecidableEq AutoMaterializeRuleSnapshot :=
  inferInstanceAs (DecidableEq AutoMaterializeRule)

/-- `AutoMaterializeRule.to_snapshot`; modelled from the spec as the identity. -/
def AutoMaterializeRule.to_snapshot (r : AutoMaterializeRule) : AutoMaterializeRuleSnapshot := r

/-- `AutoMaterializeRule.decision_type`; modelled from the spec.  The discard
rule's decision type is DISCARD. -/
def AutoMaterializeRule.decision_type (r : AutoMaterializeRule) : AutoMaterializeDecisionType :=
  match r with
  | .generic _ d => d
  | .discardOnMaxMaterializationsExceeded _ => .discard

/-- `RuleEvaluationResults`: a sequence of `(evaluation metadata, asset
partitions)` pairs produced by one rule evaluation. -/
def RuleEvaluationResults : Type := List (Nat × AssetSubset)

/-- The `AutomationCondition` tree of `asset_automation_evaluator.py`:
variants `RuleCondition` (atomic), `AndAutomationCondition`,
`OrAutomationCondition`, `NorAutomationCondition`, each holding its ordered
children. -/
inductive AutomationCondition where
  | rule (rule : AutoMaterializeRule)
  | and (children : List AutomationCondition)
  | or (children : List AutomationCondition)
  | nor (children : List AutomationCondition)

mutual

/-- Boolean structural equality on conditions (conditions are compared by
structural equality). -/
def AutomationCondition.beq : AutomationCondition → AutomationCondition → Bool
  | .rule r1, .rule r2 => decide (r1 = r2)
  | .and cs1, .and cs2 => AutomationCondition.beqList cs1 cs2
  | .or cs1, .or cs2 => AutomationCondition.beqList cs1 cs2
  | .nor cs1, .nor cs2 => AutomationCondition.beqList cs1 cs2
  | _, _ => false

/-- Boolean structural equality on lists of conditions. -/
def AutomationCondition.beqList : List AutomationCondition → List AutomationCondition → Bool
  | [], [] => true
  | a :: as1, b :: bs1 => AutomationCondition.beq a b && AutomationCondition.beqList as1 bs1
  | _, _ => false

end

mutual

theorem AutomationCondition.beq_iff :
    ∀ a b : AutomationCondition, AutomationCondition.beq a b = true ↔ a = b
  | .rule r1, .rule r2 => by simp [AutomationCondition.beq]
  | .and cs1, .and cs2 => by
      simp [AutomationCondition.beq, AutomationCondition.beqList_iff cs1 cs2]
  | .or cs1, .or cs2 => by
      simp [AutomationCondition.beq, AutomationCondition.beqList_iff cs1 cs2]
  | .nor cs1, .nor cs2 => by
      simp [AutomationCondition.beq, AutomationCondition.beqList_iff cs1 cs2]
  | .rule _, .and _ => by simp [AutomationCondition.beq]
  | .rule _, .or _ => by simp [AutomationCondition.beq]
  | .rule _, .nor _ => by simp [AutomationCondition.beq]
  | .and _, .rule _ => by simp [AutomationCondition.beq]
  | .and _, .or _ => by simp [AutomationCondition.beq]
  | .and _, .nor _ => by simp [AutomationCondition.beq]
  | .or _, .rule _ => by simp [AutomationCondition.beq]
  | .or _, .and _ => by simp [AutomationCondition.beq]
  | .or _, .nor _ => by simp [AutomationCondition.beq]
  | .nor _, .rule _ => by simp [AutomationCondition.beq]
  | .nor _, .and _ => by simp [AutomationCondition.beq]
  | .nor _, .or _ => by simp [AutomationCondition.beq]

theorem AutomationCondition.beqList_iff :
    ∀ a b : List AutomationCondition, AutomationCondition.beqList a b = true ↔ a = b
  | [], [] => by simp [AutomationCondition.beqList]
  | a :: as1, b :: bs1 => by
      simp [AutomationCondition.beqList, AutomationCondition.beq_iff a b,
        AutomationCondition.beqList_iff as1 bs1]
  | [], _ :: _ => by simp [AutomationCondition.beqList]
  | _ :: _, [] => by simp [AutomationCondition.beqList]

end

instance : DecidableEq AutomationCondition := fun a b =>
  decidable_of_iff (AutomationCondition.beq a b = true) (AutomationCondition.beq_iff a b)

/-- `AutomationCondition.children` (each non-atomic variant stores its
children; `RuleCondition` has none). -/
def AutomationCondition.children : AutomationCondition → List AutomationCondition
  | .rule _ => []
  | .and cs => cs
  | .or cs => cs
  | .nor cs => cs

/-- Whether a condition is an `AndAutomationCondition`
(`isinstance(self, AndAutomationCondition)`). -/
def AutomationCondition.isAndNode : AutomationCondition → Bool
  | .and _ => true
  | _ => false

/-- Whether a condition is an `OrAutomationCondition`. -/
def AutomationCondition.isOrNode : AutomationCondition → Bool
  | .or _ => true
  | _ => false

/-- Whether a condition is a `NorAutomationCondition`. -/
def AutomationCondition.isNorNode : AutomationCondition → Bool
  | .nor _ => true
  | _ => false

/-- `AutomationCondition.__and__`: groups `AndAutomationConditions` together
when the left operand is already an AND node. -/
def AutomationCondition.op_and (self other : AutomationCondition) : AutomationCondition :=
  match self with
  | .and cs => .and (cs ++ [other])
  | _ => .and [self, other]

/-- `AutomationCondition.__or__`: groups `OrAutomationConditions` together
when the left operand is already an OR node. -/
def AutomationCondition.op_or (self other : AutomationCondition) : AutomationCondition :=
  match self with
  | .or cs => .or (cs ++ [other])
  | _ => .or [self, other]

/-- `AutomationCondition.__invert__`: a negated OR becomes a NOR, a negated
NOR becomes an OR, anything else is wrapped in a singleton NOR. -/
def AutomationCondition.op_invert (self : AutomationCondition) : AutomationCondition :=
  match self with
  | .or cs => .nor cs
  | .nor cs => .or cs
  | c => .nor [c]

/-- `AutomationCondition.is_legacy`: an AND node with exactly two children,
the first an OR node and the second a NOR node. -/
def AutomationCondition.is_legacy (self : AutomationCondition) : Bool :=
  self.isAndNode
    && self.children.length == 2
    && (self.children.getD 0 (.and [])).isOrNode
    && (self.children.getD 1 (.and [])).isNorNode

/-- Modelled from the spec: `AssetAutomationConditionEvaluationContext`
(`asset_automation_condition_context.py` is not among the provided sources).
Only the candidate scope matters to the evaluator; the remaining read-only
collaborators (asset info, instance queryer, cursor) are captured by the rule
environment passed to `evaluate`. -/
structure AssetAutomationConditionEvaluationContext where
  candidate_subset : AssetSubset

/-- Modelled from the spec: `for_child` builds a fresh context for a child
condition whose candidate scope is narrowed to the given subset. -/
def AssetAutomationConditionEvaluationContext.for_child
    (_self : AssetAutomationConditionEvaluationContext)
    (_condition : AutomationCondition) (candidate_subset : AssetSubset) :
    AssetAutomationConditionEvaluationContext :=
  ⟨candidate_subset⟩

/-- Modelled from the spec: `with_candidate_subset` replaces the candidate
scope. -/
def AssetAutomationConditionEvaluationContext.with_candidate_subset
    (_self : AssetAutomationConditionEvaluationContext)
    (candidate_subset : AssetSubset) :
    AssetAutomationConditionEvaluationContext :=
  ⟨candidate_subset⟩

/-- Modelled from the spec: `empty_subset()` is the empty subset for the
context's asset. -/
def AssetAutomationConditionEvaluationContext.empty_subset
    (_self : AssetAutomationConditionEvaluationContext) : AssetSubset :=
  (∅ : AssetSubset)

/-- The semantics of rule evaluation (`rule.evaluate_for_asset(context)`).
Rule bodies live outside the evaluator, so they are a parameter of the
embedding: every rule maps an evaluation context to its results. -/
def RuleEnv : Type :=
  AutoMaterializeRule → AssetAutomationConditionEvaluationContext → RuleEvaluationResults

/-- `ConditionEvaluation`: the result of evaluating one node of the tree.
Field order follows the source: condition, true_subset, candidate_subset,
discard_subset, discard_results, results, child_evaluations.  (A Lean
`structure` cannot nest itself, hence the single-constructor inductive with
accessors below.) -/
inductive ConditionEvaluation where
  | mk
    (condition : AutomationCondition)
    (true_subset : AssetSubset)
    (candidate_subset : AssetSubset)
    (discard_subset : Option AssetSubset)
    (discard_results : RuleEvaluationResults)
    (results : RuleEvaluationResults)
    (child_evaluations : List ConditionEvaluation)

/-- Accessor for the `condition` field. -/
def ConditionEvaluation.condition : ConditionEvaluation → AutomationCondition
  | .mk c _ _ _ _ _ _ => c

/-- Accessor for the `true_subset` field. -/
def ConditionEvaluation.true_subset : ConditionEvaluation → AssetSubset
  | .mk _ t _ _ _ _ _ => t

/-- Accessor for the `candidate_subset` field. -/
def ConditionEvaluation.candidate_subset : ConditionEvaluation → AssetSubset
  | .mk _ _ s _ _ _ _ => s

/-- Accessor for the `discard_subset` field. -/
def ConditionEvaluation.discard_subset : ConditionEvaluation → Option AssetSubset
  | .mk _ _ _ d _ _ _ => d

/-- Accessor for the `discard_results` field. -/
def ConditionEvaluation.discard_results : ConditionEvaluation → RuleEvaluationResults
  | .mk _ _ _ _ dr _ _ => dr

/-- Accessor for the `results` field. -/
def ConditionEvaluation.results : ConditionEvaluation → RuleEvaluationResults
  | .mk _ _ _ _ _ r _ => r

/-- Accessor for the `child_evaluations` field. -/
def ConditionEvaluation.child_evaluations : ConditionEvaluation → List ConditionEvaluation
  | .mk _ _ _ _ _ _ ce => ce

@[simp]
theorem ConditionEvaluation.condition_mk (c t s d dr r ce) :
    (ConditionEvaluation.mk c t s d dr r ce).condition = c := rfl

@[simp]
theorem ConditionEvaluation.true_subset_mk (c t s d dr r ce) :
    (ConditionEvaluation.mk c t s d dr r ce).true_subset = t := rfl

@[simp]
theorem ConditionEvaluation.candidate_subset_mk (c t s d dr r ce) :
    (ConditionEvaluation.mk c t s d dr r ce).candidate_subset = s := rfl

@[simp]
theorem ConditionEvaluation.discard_subset_mk (c t s d dr r ce) :
    (ConditionEvaluation.mk c t s d dr r ce).discard_subset = d := rfl

@[simp]
theorem ConditionEvaluation.results_mk (c t s d dr r ce) :
    (ConditionEvaluation.mk c t s d dr r ce).results = r := rfl

@[simp]
theorem ConditionEvaluation.child_evaluations_mk (c t s d dr r ce) :
    (ConditionEvaluation.mk c t s d dr r ce).child_evaluations = ce := rfl

/-- `ConditionEvaluation._replace(discard_subset=...)` as used by the
top-level evaluator. -/
def ConditionEvaluation.replace_discard_subset
    (e : ConditionEvaluation) (d : Option AssetSubset) : ConditionEvaluation :=
  match e with
  | .mk c t s _ dr r ce => .mk c t s d dr r ce

mutual

/-- `AutomationCondition.evaluate` (dispatching on the condition variant):
  * `RuleCondition.evaluate`: run the rule, union the returned subsets into
    `true_subset`, record `results`;
  * `AndAutomationCondition.evaluate`: thread the narrowed context through
    `andLoop`;
  * `OrAutomationCondition.evaluate`: evaluate every child in the unmodified
    context via `orLoop`;
  * `NorAutomationCondition.evaluate`: thread the narrowed context through
    `norLoop`.
Note that for AND and NOR the source rebinds the loop variable `context`, so
the `candidate_subset` stored on the returned node is read from the *final*
loop context. -/
def AutomationCondition.evaluate (env : RuleEnv) :
    AutomationCondition → AssetAutomationConditionEvaluationContext → ConditionEvaluation
  | .rule r, context =>
      let results := env r context
      let true_subset := results.foldl (fun acc p => acc ∪ p.2) (context.empty_subset)
      .mk (.rule r) true_subset context.candidate_subset none [] results []
  | .and cs, context =>
      let st := AutomationCondition.andLoop env context context.candidate_subset cs
      .mk (.and cs) st.2.1 st.1.candidate_subset none [] [] st.2.2
  | .or cs, context =>
      let st := AutomationCondition.orLoop env context (context.empty_subset) cs
      .mk (.or cs) st.1 context.candidate_subset none [] [] st.2
  | .nor cs, context =>
      let st := AutomationCondition.norLoop env context context.candidate_subset cs
      .mk (.nor cs) st.2.1 st.1.candidate_subset none [] [] st.2.2

/-- The `for child in self.children` loop of `AndAutomationCondition.evaluate`:
rebinds `context = context.for_child(child, true_subset)`, evaluates the
child, and intersects its `true_subset` into the running value.  Returns the
final loop context, the final running `true_subset`, and the child
evaluations in order. -/
def AutomationCondition.andLoop (env : RuleEnv)
    (context : AssetAutomationConditionEvaluationContext) (true_subset : AssetSubset) :
    List AutomationCondition →
      AssetAutomationConditionEvaluationContext × AssetSubset × List ConditionEvaluation
  | [] => (context, true_subset, [])
  | child :: rest =>
      let context2 := context.for_child child true_subset
      let result := AutomationCondition.evaluate env child context2
      let st := AutomationCondition.andLoop env context2 (true_subset ∩ result.true_subset) rest
      (st.1, st.2.1, result :: st.2.2)

/-- The `for child in self.children` loop of `OrAutomationCondition.evaluate`:
every child is evaluated in the same (unnarrowed) context and its
`true_subset` is unioned into the running value. -/
def AutomationCondition.orLoop (env : RuleEnv)
    (context : AssetAutomationConditionEvaluationContext) (true_subset : AssetSubset) :
    List AutomationCondition → AssetSubset × List ConditionEvaluation
  | [] => (true_subset, [])
  | child :: rest =>
      let result := AutomationCondition.evaluate env child context
      let st := AutomationCondition.orLoop env context (true_subset ∪ result.true_subset) rest
      (st.1, result :: st.2)

/-- The `for child in self.children` loop of `NorAutomationCondition.evaluate`:
rebinds `context = context.with_candidate_subset(true_subset)`, evaluates the
child, and subtracts its `true_subset` from the running value. -/
def AutomationCondition.norLoop (env : RuleEnv)
    (context : AssetAutomationConditionEvaluationContext) (true_subset : AssetSubset) :
    List AutomationCondition →
      AssetAutomationConditionEvaluationContext × AssetSubset × List ConditionEvaluation
  | [] => (context, true_subset, [])
  | child :: rest =>
      let context2 := context.with_candidate_subset true_subset
      let result := AutomationCondition.evaluate env child context2
      let st := AutomationCondition.norLoop env context2 (true_subset \ result.true_subset) rest
      (st.1, st.2.1, result :: st.2.2)

end

/-- The running value threaded through the AND loop: starting from `t`, each
child is evaluated with candidate scope equal to the running value, and its
`true_subset` is intersected in. -/
def AutomationCondition.andRunning (env : RuleEnv) :
    AssetSubset → List AutomationCondition → AssetSubset
  | t, [] => t
  | t, c :: rest =>
      AutomationCondition.andRunning env (t ∩ (c.evaluate env ⟨t⟩).true_subset) rest

/-- The running value threaded through the NOR loop: starting from `t`, each
child is evaluated with candidate scope equal to the running value, and its
`true_subset` is subtracted. -/
def AutomationCondition.norRunning (env : RuleEnv) :
    AssetSubset → List AutomationCondition → AssetSubset
  | t, [] => t
  | t, c :: rest =>
      AutomationCondition.norRunning env (t \ (c.evaluate env ⟨t⟩).true_subset) rest

mutual

/-- All rules appearing at the leaves of a condition tree, in order. -/
def AutomationCondition.condition_rules : AutomationCondition → List AutoMaterializeRule
  | .rule r => [r]
  | .and cs => AutomationCondition.condition_rules_list cs
  | .or cs => AutomationCondition.condition_rules_list cs
  | .nor cs => AutomationCondition.condition_rules_list cs

/-- All rules appearing at the leaves of a list of condition trees. -/
def AutomationCondition.condition_rules_list :
    List AutomationCondition → List AutoMaterializeRule
  | [] => []
  | c :: rest =>
      AutomationCondition.condition_rules c ++ AutomationCondition.condition_rules_list rest

end

/-- `AutoMaterializeRuleEvaluation`: pairs a rule snapshot with the evaluation
data attached to one group of partitions (modelled from the spec;
`auto_materialize_rule_evaluation.py` is not among the provided sources). -/
structure AutoMaterializeRuleEvaluation where
  rule_snapshot : AutoMaterializeRuleSnapshot
  evaluation_data : Nat
deriving DecidableEq

/-- The rule-evaluation pairs contributed directly at a node by
`ConditionEvaluation.all_results`: non-empty only when the node's condition is
an atomic `RuleCondition`. -/
def ConditionEvaluation.node_results (e : ConditionEvaluation) :
    List (AutoMaterializeRuleEvaluation × AssetSubset) :=
  match e.condition with
  | .rule r => e.results.map (fun p => (⟨r.to_snapshot, p.1⟩, p.2))
  | _ => []

mutual

/-- `ConditionEvaluation.all_results`: the node's own converted results,
followed by the flattened results of each child in order (the source's
`results = [*results, *child.all_results]` loop). -/
def ConditionEvaluation.all_results :
    ConditionEvaluation → List (AutoMaterializeRuleEvaluation × AssetSubset)
  | .mk c t s d dr r ce =>
      ConditionEvaluation.allResultsLoop
        (ConditionEvaluation.node_results (.mk c t s d dr r ce)) ce

/-- The `for child in self.child_evaluations` accumulation loop of
`all_results`. -/
def ConditionEvaluation.allResultsLoop
    (results : List (AutoMaterializeRuleEvaluation × AssetSubset)) :
    List ConditionEvaluation → List (AutoMaterializeRuleEvaluation × AssetSubset)
  | [] => results
  | child :: rest =>
      ConditionEvaluation.allResultsLoop (results ++ child.all_results) rest

end

/-- `AutoMaterializeAssetEvaluation`: the flat legacy evaluation record
(modelled from the spec; `auto_materialize_rule_evaluation.py` is not among
the provided sources).  `get_evaluated_subset` and
`get_rule_evaluation_results` stand for the record's query methods; the
asset-graph argument they take in the source is already captured here. -/
structure AutoMaterializeAssetEvaluation where
  rule_snapshots : Option (List AutoMaterializeRuleSnapshot)
  get_evaluated_subset : AssetSubset
  get_rule_evaluation_results : AutoMaterializeRuleSnapshot → RuleEvaluationResults

/-- `ConditionEvaluation.from_evaluation_and_rule`: reconstructs a leaf
evaluation for one rule from the legacy record.  The candidate subset is
empty for MATERIALIZE-type rules and the evaluated subset otherwise. -/
def ConditionEvaluation.from_evaluation_and_rule
    (evaluation : AutoMaterializeAssetEvaluation) (rule : AutoMaterializeRule) :
    ConditionEvaluation :=
  .mk (.rule rule)
    (∅ : AssetSubset)
    (if rule.decision_type = AutoMaterializeDecisionType.materialize then (∅ : AssetSubset)
      else evaluation.get_evaluated_subset)
    (some (∅ : AssetSubset))
    []
    (evaluation.get_rule_evaluation_results rule.to_snapshot)
    []

/-- The rules of a legacy branch whose snapshots appear in
`evaluation.rule_snapshots or set()` (the two comprehensions of
`from_evaluation`). -/
def ConditionEvaluation.matching_rules (branch : AutomationCondition)
    (evaluation : AutoMaterializeAssetEvaluation) : List AutoMaterializeRule :=
  branch.children.filterMap (fun c =>
    match c with
    | .rule r =>
        if r.to_snapshot ∈ evaluation.rule_snapshots.getD [] then some r else none
    | _ => none)

/-- `ConditionEvaluation.from_evaluation`: returns `none` for non-legacy
conditions; for a legacy condition it reconstructs the two synthetic branch
evaluations (materialize branch, skip branch) from the flat record. -/
def ConditionEvaluation.from_evaluation (condition : AutomationCondition)
    (evaluation : AutoMaterializeAssetEvaluation) : Option ConditionEvaluation :=
  if ¬ condition.is_legacy then none
  else
    match condition.children with
    | [materialize_condition, skip_condition] =>
        let materialize_rules :=
          ConditionEvaluation.matching_rules materialize_condition evaluation
        let skip_rules := ConditionEvaluation.matching_rules skip_condition evaluation
        let children : List ConditionEvaluation :=
          [.mk materialize_condition (∅ : AssetSubset) (∅ : AssetSubset) none [] []
            (materialize_rules.map
              (ConditionEvaluation.from_evaluation_and_rule evaluation)),
          .mk skip_condition (∅ : AssetSubset) (∅ : AssetSubset) none [] []
            (skip_rules.map (ConditionEvaluation.from_evaluation_and_rule evaluation))]
        some (.mk condition evaluation.get_evaluated_subset (∅ : AssetSubset) none [] [] children)
    | _ => none  -- unreachable: `is_legacy` guarantees exactly two children

/-- Modelled from the spec: `AssetDaemonAssetCursor` captures the materialized
and discarded subsets for the next pass (`asset_daemon_cursor.py` is not among
the provided sources). -/
structure AssetDaemonAssetCursor where
  to_materialize : AssetSubset
  to_discard : AssetSubset

/-- Modelled from the spec: `AssetAutomationEvaluationContext`, the top-level
per-asset evaluation context; only the root candidate scope (all
existing-or-requestable partitions) is relevant here
(`asset_automation_condition_context.py` is not among the provided sources). -/
structure AssetAutomationEvaluationContext where
  root_candidate_subset : AssetSubset

/-- Modelled from the spec: `get_root_condition_context` builds the root
condition context whose candidate scope is the full candidate set. -/
def AssetAutomationEvaluationContext.get_root_condition_context
    (self : AssetAutomationEvaluationContext) : AssetAutomationConditionEvaluationContext :=
  ⟨self.root_candidate_subset⟩

/-- Modelled from the spec: `empty_subset()` of the top-level context. -/
def AssetAutomationEvaluationContext.empty_subset
    (_self : AssetAutomationEvaluationContext) : AssetSubset :=
  (∅ : AssetSubset)

/-- Modelled from the spec: `get_new_asset_cursor` returns a fresh cursor
recording the materialized and discarded subsets. -/
def AssetAutomationEvaluationContext.get_new_asset_cursor
    (_self : AssetAutomationEvaluationContext)
    (to_materialize to_discard : AssetSubset) : AssetDaemonAssetCursor :=
  ⟨to_materialize, to_discard⟩

/-- `AssetAutomationEvaluator`: one root condition plus the optional
materialization-rate cap (whose source default is `1`). -/
structure AssetAutomationEvaluator where
  condition : AutomationCondition
  max_materializations_per_minute : Option Nat

/-- `AssetAutomationEvaluator.evaluate`: evaluates the root condition against
the root context; when a cap is configured, evaluates a synthetic
`RuleCondition(DiscardOnMaxMaterializationsExceededRule(limit))` against a
context whose candidate scope is the tree's `true_subset`.  Returns the
evaluation (with its `discard_subset` replaced), the new cursor, and the
discard subset. -/
def AssetAutomationEvaluator.evaluate (self : AssetAutomationEvaluator) (env : RuleEnv)
    (context : AssetAutomationEvaluationContext) :
    ConditionEvaluation × AssetDaemonAssetCursor × AssetSubset :=
  let condition_context := context.get_root_condition_context
  let condition_evaluation := self.condition.evaluate env condition_context
  let to_discard :=
    match self.max_materializations_per_minute with
    | none => context.empty_subset
    | some limit =>
        -- `dataclasses.replace(condition_context, candidate_subset=...)`
        let discard_context : AssetAutomationConditionEvaluationContext :=
          ⟨condition_evaluation.true_subset⟩
        let condition : AutomationCondition :=
          .rule (.discardOnMaxMaterializationsExceeded limit)
        let discard_condition_evaluation := condition.evaluate env discard_context
        discard_condition_evaluation.true_subset
  (condition_evaluation.replace_discard_subset (some to_discard),
    context.get_new_asset_cursor condition_evaluation.true_subset to_discard,
    to_discard)

theorem AssetSubset.empty_subset_eq (ctx : AssetAutomationConditionEvaluationContext) :
    ctx.empty_subset = (∅ : AssetSubset) := rfl

/-- The final context of the AND loop carries the running value as narrowed
for the last child (or the initial context when there are no children). -/
theorem AutomationCondition.andLoop_final_candidate (env : RuleEnv) :
    ∀ (cs : List AutomationCondition) (ctx : AssetAutomationConditionEvaluationContext)
      (t : AssetSubset),
      (AutomationCondition.andLoop env ctx t cs).1.candidate_subset =
        (if cs = [] then ctx.candidate_subset
          else AutomationCondition.andRunning env t cs.dropLast)
  | [], ctx, t => by simp [AutomationCondition.andLoop]
  | [c], ctx, t => by
      simp [AutomationCondition.andLoop, AutomationCondition.andRunning,
        AssetAutomationConditionEvaluationContext.for_child]
  | c :: c2 :: rest, ctx, t => by
      rw [AutomationCondition.andLoop]
      rw [AutomationCondition.andLoop_final_candidate env (c2 :: rest)]
      simp [AutomationCondition.andRunning,
        AssetAutomationConditionEvaluationContext.for_child]

/-- The final context of the NOR loop carries the running value as narrowed
for the last child (or the initial context when there are no children). -/
theorem AutomationCondition.norLoop_final_candidate (env : RuleEnv) :
    ∀ (cs : List AutomationCondition) (ctx : AssetAutomationConditionEvaluationContext)
      (t : AssetSubset),
      (AutomationCondition.norLoop env ctx t cs).1.candidate_subset =
        (if cs = [] then ctx.candidate_subset
          else AutomationCondition.norRunning env t cs.dropLast)
  | [], ctx, t => by simp [AutomationCondition.norLoop]
  | [c], ctx, t => by
      simp [AutomationCondition.norLoop, AutomationCondition.norRunning,
        AssetAutomationConditionEvaluationContext.with_candidate_subset]
  | c :: c2 :: rest, ctx, t => by
      rw [AutomationCondition.norLoop]
      rw [AutomationCondition.norLoop_final_candidate env (c2 :: rest)]
      simp [AutomationCondition.norRunning,
        AssetAutomationConditionEvaluationContext.with_candidate_subset]

mutual

/-- Evaluation only consults the environment at rules occurring in the tree:
two environments agreeing on those rules evaluate the tree identically. -/
theorem AutomationCondition.evaluate_congr (env env2 : RuleEnv) :
    ∀ (c : AutomationCondition) (ctx : AssetAutomationConditionEvaluationContext),
      (∀ r ctx2, r ∈ c.condition_rules → env r ctx2 = env2 r ctx2) →
      c.evaluate env ctx = c.evaluate env2 ctx
  | .rule r, ctx, h => by
      have hr : env r ctx = env2 r ctx :=
        h r ctx (by simp [AutomationCondition.condition_rules])
      simp [AutomationCondition.evaluate, hr]
  | .and cs, ctx, h => by
      have hl := AutomationCondition.andLoop_congr env env2 cs ctx ctx.candidate_subset
        (by simpa [AutomationCondition.condition_rules] using h)
      simp [AutomationCondition.evaluate, hl]
  | .or cs, ctx, h => by
      have hl := AutomationCondition.orLoop_congr env env2 cs ctx ctx.empty_subset
        (by simpa [AutomationCondition.condition_rules] using h)
      simp [AutomationCondition.evaluate, hl]
  | .nor cs, ctx, h => by
      have hl := AutomationCondition.norLoop_congr env env2 cs ctx ctx.candidate_subset
        (by simpa [AutomationCondition.condition_rules] using h)
      simp [AutomationCondition.evaluate, hl]

/-- `andLoop` congruence in the rule environment. -/
theorem AutomationCondition.andLoop_congr (env env2 : RuleEnv) :
    ∀ (cs : List AutomationCondition) (ctx : AssetAutomationConditionEvaluationContext)
      (t : AssetSubset),
      (∀ r ctx2, r ∈ AutomationCondition.condition_rules_list cs → env r ctx2 = env2 r ctx2) →
      AutomationCondition.andLoop env ctx t cs = AutomationCondition.andLoop env2 ctx t cs
  | [], _, _, _ => rfl
  | c :: rest, ctx, t, h => by
      have hc := AutomationCondition.evaluate_congr env env2 c (ctx.for_child c t)
        (fun r ctx2 hr => h r ctx2
          (by simp [AutomationCondition.condition_rules_list, hr]))
      have hrest := AutomationCondition.andLoop_congr env env2 rest
        (ctx.for_child c t) (t ∩ (c.evaluate env2 (ctx.for_child c t)).true_subset)
        (fun r ctx2 hr => h r ctx2
          (by simp [AutomationCondition.condition_rules_list, hr]))
      simp [AutomationCondition.andLoop, hc, hrest]

/-- `orLoop` congruence in the rule environment. -/
theorem AutomationCondition.orLoop_congr (env env2 : RuleEnv) :
    ∀ (cs : List AutomationCondition) (ctx : AssetAutomationConditionEvaluationContext)
      (t : AssetSubset),
      (∀ r ctx2, r ∈ AutomationCondition.condition_rules_list cs → env r ctx2 = env2 r ctx2) →
      AutomationCondition.orLoop env ctx t cs = AutomationCondition.orLoop env2 ctx t cs
  | [], _, _, _ => rfl
  | c :: rest, ctx, t, h => by
      have hc := AutomationCondition.evaluate_congr env env2 c ctx
        (fun r ctx2 hr => h r ctx2
          (by simp [AutomationCondition.condition_rules_list, hr]))
      have hrest := AutomationCondition.orLoop_congr env env2 rest ctx
        (t ∪ (c.evaluate env2 ctx).true_subset)
        (fun r ctx2 hr => h r ctx2
          (by simp [AutomationCondition.condition_rules_list, hr]))
      simp [AutomationCondition.orLoop, hc, hrest]

/-- `norLoop` congruence in the rule environment. -/
theorem AutomationCondition.norLoop_congr (env env2 : RuleEnv) :
    ∀ (cs : List AutomationCondition) (ctx : AssetAutomationConditionEvaluationContext)
      (t : AssetSubset),
      (∀ r ctx2, r ∈ AutomationCondition.condition_rules_list cs → env r ctx2 = env2 r ctx2) →
      AutomationCondition.norLoop env ctx t cs = AutomationCondition.norLoop env2 ctx t cs
  | [], _, _, _ => rfl
  | c :: rest, ctx, t, h => by
      have hc := AutomationCondition.evaluate_congr env env2 c
        (ctx.with_candidate_subset t)
        (fun r ctx2 hr => h r ctx2
          (by simp [AutomationCondition.condition_rules_list, hr]))
      have hrest := AutomationCondition.norLoop_congr env env2 rest
        (ctx.with_candidate_subset t)
        (t \ (c.evaluate env2 (ctx.with_candidate_subset t)).true_subset)
        (fun r ctx2 hr => h r ctx2
          (by simp [AutomationCondition.condition_rules_list, hr]))
      simp [AutomationCondition.norLoop, hc, hrest]

end

/-- The accumulator loop of `all_results` prepends its accumulator to the
concatenation of the children's flattened results, in order. -/
theorem ConditionEvaluation.allResultsLoop_eq
    (l : List ConditionEvaluation)
    (acc : List (AutoMaterializeRuleEvaluation × AssetSubset)) :
    ConditionEvaluation.allResultsLoop acc l =
      acc ++ (l.map ConditionEvaluation.all_results).flatten := by
  induction l generalizing acc with
  | nil => simp [ConditionEvaluation.allResultsLoop]
  | cons child rest ih =>
      simp [ConditionEvaluation.allResultsLoop, ih]

/-- A rule environment for concrete evaluations: rule id 0 fires on partition
0, every other rule fires on partition 1. -/
def envTwoRules : RuleEnv := fun r _ =>
  match r with
  | .generic 0 _ => [(0, ({0} : AssetSubset))]
  | _ => [(0, ({1} : AssetSubset))]

/-- C1: an AND node with two children evaluates the first child with its own
candidate scope `S`; when the first child's `true_subset` is `X ⊆ S`, the
second child is evaluated with candidate scope exactly `X`; the node's
`true_subset` is `S ∩ X ∩ Y = X ∩ Y`; both children appear in the child
evaluations even when the running value is empty. -/
theorem and_node_two_children_evaluation
    (env : RuleEnv) (S X Y : AssetSubset) (c1 c2 : AutomationCondition)
    (h1 : (c1.evaluate env ⟨S⟩).true_subset = X) (hX : X ⊆ S)
    (h2 : (c2.evaluate env ⟨X⟩).true_subset = Y) (hY : Y ⊆ S) :
    ((AutomationCondition.and [c1, c2]).evaluate env ⟨S⟩).child_evaluations =
        [c1.evaluate env ⟨S⟩, c2.evaluate env ⟨X⟩]
      ∧ ((AutomationCondition.and [c1, c2]).evaluate env ⟨S⟩).true_subset = S ∩ X ∩ Y
      ∧ ((AutomationCondition.and [c1, c2]).evaluate env ⟨S⟩).true_subset = X ∩ Y := by
  have hSX : S ∩ X = X := Finset.inter_eq_right.mpr hX
  refine ⟨?_, ?_, ?_⟩ <;>
    simp [AutomationCondition.evaluate, AutomationCondition.andLoop,
      AssetAutomationConditionEvaluationContext.for_child, h1, hSX, h2]

/-- Witness for C1 at concrete inputs. -/
theorem and_node_two_children_evaluation_witness :
    ((AutomationCondition.rule (.generic 0 .materialize)).evaluate envTwoRules
        ⟨{0, 1}⟩).true_subset = {0}
    ∧ ({0} : AssetSubset) ⊆ {0, 1}
    ∧ ((AutomationCondition.rule (.generic 1 .materialize)).evaluate envTwoRules
        ⟨{0}⟩).true_subset = {1}
    ∧ ({1} : AssetSubset) ⊆ {0, 1}
    ∧ (((AutomationCondition.and [.rule (.generic 0 .materialize),
          .rule (.generic 1 .materialize)]).evaluate envTwoRules ⟨{0, 1}⟩).child_evaluations =
          [(AutomationCondition.rule (.generic 0 .materialize)).evaluate envTwoRules ⟨{0, 1}⟩,
            (AutomationCondition.rule (.generic 1 .materialize)).evaluate envTwoRules ⟨{0}⟩]
        ∧ ((AutomationCondition.and [.rule (.generic 0 .materialize),
            .rule (.generic 1 .materialize)]).evaluate envTwoRules ⟨{0, 1}⟩).true_subset =
            {0, 1} ∩ {0} ∩ {1}
        ∧ ((AutomationCondition.and [.rule (.generic 0 .materialize),
            .rule (.generic 1 .materialize)]).evaluate envTwoRules ⟨{0, 1}⟩).true_subset =
            {0} ∩ {1}) :=
  ⟨by decide, by decide, by decide, by decide,
    and_node_two_children_evaluation envTwoRules {0, 1} {0} {1}
      (.rule (.generic 0 .materialize)) (.rule (.generic 1 .materialize))
      (by decide) (by decide) (by decide) (by decide)⟩

/-- C3: a NOR node with two children evaluates the first child with its own
candidate scope `S`; when the first child's `true_subset` is `X`, the second
child is evaluated with candidate scope `S − X`; the node's `true_subset` is
the sequential difference `(S − X) − Y`. -/
theorem nor_node_two_children_evaluation
    (env : RuleEnv) (S X Y : AssetSubset) (c1 c2 : AutomationCondition)
    (h1 : (c1.evaluate env ⟨S⟩).true_subset = X)
    (h2 : (c2.evaluate env ⟨S \ X⟩).true_subset = Y) :
    ((AutomationCondition.nor [c1, c2]).evaluate env ⟨S⟩).child_evaluations =
        [c1.evaluate env ⟨S⟩, c2.evaluate env ⟨S \ X⟩]
      ∧ ((AutomationCondition.nor [c1, c2]).evaluate env ⟨S⟩).true_subset = (S \ X) \ Y := by
  refine ⟨?_, ?_⟩ <;>
    simp [AutomationCondition.evaluate, AutomationCondition.norLoop,
      AssetAutomationConditionEvaluationContext.with_candidate_subset, h1, h2]

/-- Witness for C3 at concrete inputs. -/
theorem nor_node_two_children_evaluation_witness :
    ((AutomationCondition.rule (.generic 0 .materialize)).evaluate envTwoRules
        ⟨{0, 1, 2}⟩).true_subset = {0}
    ∧ ((AutomationCondition.rule (.generic 1 .materialize)).evaluate envTwoRules
        ⟨{0, 1, 2} \ {0}⟩).true_subset = {1}
    ∧ (((AutomationCondition.nor [.rule (.generic 0 .materialize),
          .rule (.generic 1 .materialize)]).evaluate envTwoRules ⟨{0, 1, 2}⟩).child_evaluations =
          [(AutomationCondition.rule (.generic 0 .materialize)).evaluate envTwoRules ⟨{0, 1, 2}⟩,
            (AutomationCondition.rule (.generic 1 .materialize)).evaluate envTwoRules
              ⟨{0, 1, 2} \ {0}⟩]
        ∧ ((AutomationCondition.nor [.rule (.generic 0 .materialize),
            .rule (.generic 1 .materialize)]).evaluate envTwoRules ⟨{0, 1, 2}⟩).true_subset =
            ({0, 1, 2} \ {0}) \ {1}) :=
  ⟨by decide, by decide,
    nor_node_two_children_evaluation envTwoRules {0, 1, 2} {0} {1}
      (.rule (.generic 0 .materialize)) (.rule (.generic 1 .materialize))
      (by decide) (by decide)⟩

/-- C4: an OR node evaluates every child against the identical, unnarrowed
candidate scope `S` it received, and its `true_subset` is the union of the
children's `true_subset`s. -/
theorem or_node_two_children_evaluation
    (env : RuleEnv) (S X Y : AssetSubset) (c1 c2 : AutomationCondition)
    (h1 : (c1.evaluate env ⟨S⟩).true_subset = X)
    (h2 : (c2.evaluate env ⟨S⟩).true_subset = Y) :
    ((AutomationCondition.or [c1, c2]).evaluate env ⟨S⟩).child_evaluations =
        [c1.evaluate env ⟨S⟩, c2.evaluate env ⟨S⟩]
      ∧ ((AutomationCondition.or [c1, c2]).evaluate env ⟨S⟩).true_subset = X ∪ Y
      ∧ ((AutomationCondition.or [c1, c2]).evaluate env ⟨S⟩).candidate_subset = S := by
  refine ⟨?_, ?_, ?_⟩ <;>
    simp [AutomationCondition.evaluate, AutomationCondition.orLoop,
      AssetAutomationConditionEvaluationContext.empty_subset, h1, h2]

/-- Witness for C4 at concrete inputs. -/
theorem or_node_two_children_evaluation_witness :
    ((AutomationCondition.rule (.generic 0 .materialize)).evaluate envTwoRules
        ⟨{0, 1}⟩).true_subset = {0}
    ∧ ((AutomationCondition.rule (.generic 1 .materialize)).evaluate envTwoRules
        ⟨{0, 1}⟩).true_subset = {1}
    ∧ (((AutomationCondition.or [.rule (.generic 0 .materialize),
          .rule (.generic 1 .materialize)]).evaluate envTwoRules ⟨{0, 1}⟩).child_evaluations =
          [(AutomationCondition.rule (.generic 0 .materialize)).evaluate envTwoRules ⟨{0, 1}⟩,
            (AutomationCondition.rule (.generic 1 .materialize)).evaluate envTwoRules ⟨{0, 1}⟩]
        ∧ ((AutomationCondition.or [.rule (.generic 0 .materialize),
            .rule (.generic 1 .materialize)]).evaluate envTwoRules ⟨{0, 1}⟩).true_subset =
            {0} ∪ {1}
        ∧ ((AutomationCondition.or [.rule (.generic 0 .materialize),
            .rule (.generic 1 .materialize)]).evaluate envTwoRules ⟨{0, 1}⟩).candidate_subset =
            {0, 1}) :=
  ⟨by decide, by decide,
    or_node_two_children_evaluation envTwoRules {0, 1} {0} {1}
      (.rule (.generic 0 .materialize)) (.rule (.generic 1 .materialize))
      (by decide) (by decide)⟩

/-- The rule environment in which every rule returns no results. -/
def emptyRuleEnv : RuleEnv := fun _ _ => []

/-- C2 counterexample: an AND node invoked with candidate scope `{0}` whose
first child returns an empty `true_subset` reports `candidate_subset = ∅`,
not the scope `{0}` its parent passed down (the source rebinds `context` in
the loop before reading `context.candidate_subset`). -/
theorem candidate_subset_counterexample :
    ¬ (((AutomationCondition.and [.rule (.generic 0 .materialize),
          .rule (.generic 1 .materialize)]).evaluate emptyRuleEnv
            ⟨{0}⟩).candidate_subset = {0}) := by decide

/-- C2 amended: RULE and OR nodes report the candidate scope their parent
passed down; AND and NOR nodes report the running narrowed scope with which
their last child was evaluated (the intersection, resp. difference, of the
input scope with the `true_subset`s of all children but the last), which
equals the parent's scope only when the node has fewer than two children or
no narrowing occurred. -/
theorem candidate_subset_characterization (env : RuleEnv)
    (ctx : AssetAutomationConditionEvaluationContext) (c : AutomationCondition) :
    (c.evaluate env ctx).candidate_subset =
      match c with
      | .rule _ => ctx.candidate_subset
      | .or _ => ctx.candidate_subset
      | .and cs => AutomationCondition.andRunning env ctx.candidate_subset cs.dropLast
      | .nor cs => AutomationCondition.norRunning env ctx.candidate_subset cs.dropLast := by
  cases c with
  | rule r => simp [AutomationCondition.evaluate]
  | and cs =>
      rcases cs with _ | ⟨c1, rest⟩
      · simp [AutomationCondition.evaluate, AutomationCondition.andLoop,
          AutomationCondition.andRunning]
      · simp [AutomationCondition.evaluate,
          AutomationCondition.andLoop_final_candidate env (c1 :: rest)]
  | or cs => simp [AutomationCondition.evaluate]
  | nor cs =>
      rcases cs with _ | ⟨c1, rest⟩
      · simp [AutomationCondition.evaluate, AutomationCondition.norLoop,
          AutomationCondition.norRunning]
      · simp [AutomationCondition.evaluate,
          AutomationCondition.norLoop_final_candidate env (c1 :: rest)]

/-- C5 counterexample: when `c1` is itself an OR node, `c1 | c2` flattens, so
`~(c1 | c2)` is a NOR over the flattened children, not over `[c1, c2]`. -/
theorem invert_or_counterexample :
    ¬ (((AutomationCondition.or [.rule (.generic 0 .materialize),
            .rule (.generic 1 .materialize)]).op_or
          (.rule (.generic 2 .materialize))).op_invert =
        AutomationCondition.nor
          [.or [.rule (.generic 0 .materialize), .rule (.generic 1 .materialize)],
            .rule (.generic 2 .materialize)]) := by decide

/-- C5 amended: for `c1` that is not an OR node, `~(c1 | c2)` is structurally
the NOR node over `[c1, c2]`, and negating again yields structurally the OR
node over `[c1, c2]`. -/
theorem invert_or_nor_pair (c1 c2 : AutomationCondition)
    (h : c1.isOrNode = false) :
    (c1.op_or c2).op_invert = AutomationCondition.nor [c1, c2]
      ∧ ((c1.op_or c2).op_invert).op_invert = AutomationCondition.or [c1, c2] := by
  cases c1 <;> simp_all [AutomationCondition.isOrNode, AutomationCondition.op_or,
    AutomationCondition.op_invert]

/-- Witness for the amended C5 at concrete inputs. -/
theorem invert_or_nor_pair_witness :
    (AutomationCondition.rule (.generic 0 .materialize)).isOrNode = false
    ∧ (((AutomationCondition.rule (.generic 0 .materialize)).op_or
          (.rule (.generic 1 .materialize))).op_invert =
        AutomationCondition.nor
          [.rule (.generic 0 .materialize), .rule (.generic 1 .materialize)]
      ∧ ((((AutomationCondition.rule (.generic 0 .materialize)).op_or
            (.rule (.generic 1 .materialize))).op_invert).op_invert =
          AutomationCondition.or
            [.rule (.generic 0 .materialize), .rule (.generic 1 .materialize)])) :=
  ⟨by decide,
    invert_or_nor_pair (.rule (.generic 0 .materialize)) (.rule (.generic 1 .materialize))
      (by decide)⟩

/-- C6 counterexample: when `c1` is itself an AND node, `(c1 & c2) & c3`
flattens `c1`'s children too, producing four children rather than
`[c1, c2, c3]`. -/
theorem and_flattening_counterexample :
    ¬ ((((AutomationCondition.and [.rule (.generic 0 .materialize),
              .rule (.generic 1 .materialize)]).op_and
            (.rule (.generic 2 .materialize))).op_and
          (.rule (.generic 3 .materialize))) =
        AutomationCondition.and
          [.and [.rule (.generic 0 .materialize), .rule (.generic 1 .materialize)],
            .rule (.generic 2 .materialize), .rule (.generic 3 .materialize)]) := by decide

/-- C6 amended: for `c1` that is not an AND node, `(c1 & c2) & c3` is a single
AND node with children `[c1, c2, c3]` (because `c1 & c2` is first constructed
as an AND node, which the second `&` then merges into); the flattening is
shallow and asymmetric: with `c1` and `c2` not AND nodes, `c1 & (c2 & c3)`
keeps two children, the second being the nested AND node. -/
theorem and_flattening_shallow (c1 c2 c3 : AutomationCondition)
    (h1 : c1.isAndNode = false) (h2 : c2.isAndNode = false) :
    (c1.op_and c2).op_and c3 = AutomationCondition.and [c1, c2, c3]
      ∧ c1.op_and (c2.op_and c3) =
        AutomationCondition.and [c1, AutomationCondition.and [c2, c3]] := by
  constructor
  · cases c1 <;> simp_all [AutomationCondition.isAndNode, AutomationCondition.op_and]
  · cases c2 <;> cases c1 <;>
      simp_all [AutomationCondition.isAndNode, AutomationCondition.op_and]

/-- Witness for the amended C6 at concrete inputs. -/
theorem and_flattening_shallow_witness :
    (AutomationCondition.rule (.generic 0 .materialize)).isAndNode = false
    ∧ (AutomationCondition.rule (.generic 1 .materialize)).isAndNode = false
    ∧ (((AutomationCondition.rule (.generic 0 .materialize)).op_and
            (.rule (.generic 1 .materialize))).op_and (.rule (.generic 2 .materialize)) =
        AutomationCondition.and
          [.rule (.generic 0 .materialize), .rule (.generic 1 .materialize),
            .rule (.generic 2 .materialize)]
      ∧ (AutomationCondition.rule (.generic 0 .materialize)).op_and
          ((AutomationCondition.rule (.generic 1 .materialize)).op_and
            (.rule (.generic 2 .materialize))) =
        AutomationCondition.and
          [.rule (.generic 0 .materialize),
            AutomationCondition.and
              [.rule (.generic 1 .materialize), .rule (.generic 2 .materialize)]]) :=
  ⟨by decide, by decide,
    and_flattening_shallow (.rule (.generic 0 .materialize))
      (.rule (.generic 1 .materialize)) (.rule (.generic 2 .materialize))
      (by decide) (by decide)⟩

/-- A legacy condition is exactly an AND node whose children are an OR node
followed by a NOR node. -/
theorem is_legacy_iff (c : AutomationCondition) :
    c.is_legacy = true ↔
      ∃ cs1 cs2, c = AutomationCondition.and
        [AutomationCondition.or cs1, AutomationCondition.nor cs2] := by
  cases c with
  | rule r => simp [AutomationCondition.is_legacy, AutomationCondition.isAndNode]
  | or cs => simp [AutomationCondition.is_legacy, AutomationCondition.isAndNode]
  | nor cs => simp [AutomationCondition.is_legacy, AutomationCondition.isAndNode]
  | and cs =>
      rcases cs with _ | ⟨x, _ | ⟨y, _ | ⟨z, rest⟩⟩⟩
      · simp [AutomationCondition.is_legacy, AutomationCondition.children]
      · simp [AutomationCondition.is_legacy, AutomationCondition.children]
      · cases x <;> cases y <;>
          simp [AutomationCondition.is_legacy, AutomationCondition.children,
            AutomationCondition.isAndNode, AutomationCondition.isOrNode,
            AutomationCondition.isNorNode]
      · simp [AutomationCondition.is_legacy, AutomationCondition.children]

/-- C7: `is_legacy` holds exactly for AND nodes with two children, an OR
first child and a NOR second child; in particular `AND(OR(a,b), NOR(c,d))` is
legacy while `AND(a,b,c)` (three children) and `OR(AND(a,b), c)` are not. -/
theorem is_legacy_characterization (c a b c2 d : AutomationCondition) :
    (c.is_legacy = true ↔
        ∃ cs1 cs2, c = AutomationCondition.and
          [AutomationCondition.or cs1, AutomationCondition.nor cs2])
      ∧ (AutomationCondition.and
          [AutomationCondition.or [a, b], AutomationCondition.nor [c2, d]]).is_legacy = true
      ∧ (AutomationCondition.and [a, b, c2]).is_legacy = false
      ∧ (AutomationCondition.or [AutomationCondition.and [a, b], c2]).is_legacy = false := by
  refine ⟨is_legacy_iff c, ?_, ?_, ?_⟩
  · simp [is_legacy_iff]
  · simp [AutomationCondition.is_legacy, AutomationCondition.children]
  · simp [AutomationCondition.is_legacy, AutomationCondition.isAndNode]

/-- A concrete legacy evaluation record with no snapshots and no partitions. -/
def emptyAssetEvaluation : AutoMaterializeAssetEvaluation :=
  ⟨none, (∅ : AssetSubset), fun _ => []⟩

/-- C8: `from_evaluation` returns `none` (a no-op, not an error) exactly on
non-legacy conditions, and returns a reconstructed evaluation for legacy
conditions. -/
theorem from_evaluation_legacy_guard (c1 c2 : AutomationCondition)
    (e : AutoMaterializeAssetEvaluation)
    (h1 : c1.is_legacy = false) (h2 : c2.is_legacy = true) :
    ConditionEvaluation.from_evaluation c1 e = none
      ∧ (ConditionEvaluation.from_evaluation c2 e).isSome = true := by
  constructor
  · simp [ConditionEvaluation.from_evaluation, h1]
  · obtain ⟨cs1, cs2, rfl⟩ := (is_legacy_iff c2).mp h2
    simp [ConditionEvaluation.from_evaluation, h2, AutomationCondition.children]

/-- Witness for C8 at concrete inputs. -/
theorem from_evaluation_legacy_guard_witness :
    (AutomationCondition.rule (.generic 0 .materialize)).is_legacy = false
    ∧ (AutomationCondition.and
        [AutomationCondition.or [], AutomationCondition.nor []]).is_legacy = true
    ∧ (ConditionEvaluation.from_evaluation
          (AutomationCondition.rule (.generic 0 .materialize)) emptyAssetEvaluation = none
      ∧ (ConditionEvaluation.from_evaluation
          (AutomationCondition.and [AutomationCondition.or [], AutomationCondition.nor []])
          emptyAssetEvaluation).isSome = true) :=
  ⟨by decide, by decide,
    from_evaluation_legacy_guard (.rule (.generic 0 .materialize))
      (.and [.or [], .nor []]) emptyAssetEvaluation (by decide) (by decide)⟩

/-- C9: `all_results` is the depth-first pre-order flattening: the node's own
converted results (non-empty only for atomic rule nodes, see `node_results`)
followed by the concatenation of the children's flattened results in stored
order. -/
theorem all_results_preorder (e : ConditionEvaluation) :
    e.all_results =
      e.node_results ++ (e.child_evaluations.map ConditionEvaluation.all_results).flatten := by
  cases e with
  | mk c t s d dr r ce =>
      rw [ConditionEvaluation.all_results, ConditionEvaluation.allResultsLoop_eq]
      simp

theorem ConditionEvaluation.discard_subset_replace (e : ConditionEvaluation)
    (d : Option AssetSubset) : (e.replace_discard_subset d).discard_subset = d := by
  cases e; rfl

/-- A rule environment in which only the discard rule fires. -/
def discardFiringRuleEnv : RuleEnv := fun r _ =>
  match r with
  | .discardOnMaxMaterializationsExceeded _ => [(0, ({0} : AssetSubset))]
  | _ => []

/-- C10: the third element of the triple returned by
`AssetAutomationEvaluator.evaluate` always equals the `discard_subset` stored
on the returned evaluation; with no materialization cap the discard subset is
empty and the result does not consult the environment outside the rules of
the condition tree (in particular the discard rule is never evaluated). -/
theorem evaluator_discard_consistency
    (ev ev2 : AssetAutomationEvaluator) (context : AssetAutomationEvaluationContext)
    (env env2 : RuleEnv)
    (hmax : ev.max_materializations_per_minute = none)
    (hagree : ∀ r ctx2, r ∈ ev.condition.condition_rules → env r ctx2 = env2 r ctx2) :
    (ev2.evaluate env context).1.discard_subset = some (ev2.evaluate env context).2.2
      ∧ (ev.evaluate env context).2.2 = (∅ : AssetSubset)
      ∧ ev.evaluate env context = ev.evaluate env2 context := by
  refine ⟨?_, ?_, ?_⟩
  · cases h : ev2.max_materializations_per_minute <;>
      simp [AssetAutomationEvaluator.evaluate, h, ConditionEvaluation.discard_subset_replace]
  · simp [AssetAutomationEvaluator.evaluate, hmax,
      AssetAutomationEvaluationContext.empty_subset]
  · have hcond := AutomationCondition.evaluate_congr env env2 ev.condition
      context.get_root_condition_context hagree
    simp [AssetAutomationEvaluator.evaluate, hmax, hcond]

/-- Witness for C10 at concrete inputs: an evaluator with no cap produces the
same triple under an environment where the discard rule fires and one where
nothing fires. -/
theorem evaluator_discard_consistency_witness :
    (AssetAutomationEvaluator.mk (.rule (.generic 0 .materialize))
        none).max_materializations_per_minute = none
    ∧ (((AssetAutomationEvaluator.mk (.rule (.generic 0 .materialize))
            (some 1)).evaluate emptyRuleEnv ⟨{0}⟩).1.discard_subset =
          some ((AssetAutomationEvaluator.mk (.rule (.generic 0 .materialize))
            (some 1)).evaluate emptyRuleEnv ⟨{0}⟩).2.2
      ∧ ((AssetAutomationEvaluator.mk (.rule (.generic 0 .materialize))
            none).evaluate emptyRuleEnv ⟨{0}⟩).2.2 = (∅ : AssetSubset)
      ∧ (AssetAutomationEvaluator.mk (.rule (.generic 0 .materialize))
            none).evaluate emptyRuleEnv ⟨{0}⟩ =
          (AssetAutomationEvaluator.mk (.rule (.generic 0 .materialize))
            none).evaluate discardFiringRuleEnv ⟨{0}⟩) :=
  ⟨rfl,
    evaluator_discard_consistency
      (AssetAutomationEvaluator.mk (.rule (.generic 0 .materialize)) none)
      (AssetAutomationEvaluator.mk (.rule (.generic 0 .materialize)) (some 1))
      ⟨{0}⟩ emptyRuleEnv discardFiringRuleEnv rfl
      (fun r ctx2 hr => by
        simp [AutomationCondition.condition_rules] at hr
        subst hr
        rfl)⟩
